/-
Verification of `piet-gpu` (crates/piet-gpu/src/lib.rs) against its
natural-language specification.

Shallow embedding conventions:
* `f64` coordinates are modelled as rationals (`ℚ`); the claims under
  verification are algebraic and do not depend on floating-point rounding.
* `kurbo::Affine` is six coefficients `[a, b, c, d, e, f]` with the same
  multiplication and point-application formulas as the `kurbo` crate.
* The render-state stack `TinyVec<[RenderState; 1]>` is a `List RenderState`
  whose HEAD is the TOP of the stack (Rust pushes/pops/reads at the back;
  the list mirrors that at the front, so `last()` becomes `head`).
* Reaching a `todo!()` or a failing `unwrap`/`expect` is modelled by the
  `Step.panics` constructor; ordinary returns are `Step.ret`.
* External collaborators (the lyon tessellator, `ab_glyph` rasterization,
  the `etagere` allocator) are black boxes per the spec's scope; their
  outcomes are passed as explicit parameters to the functions that call them.
-/
import Mathlib

namespace PietGpu

/-! ### Geometry: points and `kurbo::Affine` -/

/-- A 2D point (`kurbo::Point`), with `ℚ` standing in for `f64`. -/
structure Pt where
  x : ℚ
  y : ℚ
deriving DecidableEq, Repr

/-- `kurbo::Affine`: coefficients `[a, b, c, d, e, f]` of the affine map
`(x, y) ↦ (a*x + c*y + e, b*x + d*y + f)`. -/
structure Affine where
  a : ℚ
  b : ℚ
  c : ℚ
  d : ℚ
  e : ℚ
  f : ℚ
deriving DecidableEq, Repr

/-- `kurbo::Affine::IDENTITY`. -/
def Affine.identity : Affine := ⟨1, 0, 0, 1, 0, 0⟩

/-- `impl Mul for kurbo::Affine` (matrix composition, `self * other`
applies `other` first). -/
def Affine.mul (s o : Affine) : Affine :=
  ⟨s.a * o.a + s.c * o.b,
   s.b * o.a + s.d * o.b,
   s.a * o.c + s.c * o.d,
   s.b * o.c + s.d * o.d,
   s.a * o.e + s.c * o.f + s.e,
   s.b * o.e + s.d * o.f + s.f⟩

/-- `impl Mul<Point> for kurbo::Affine`: apply the affine map to a point. -/
def Affine.apply (t : Affine) (p : Pt) : Pt :=
  ⟨t.a * p.x + t.c * p.y + t.e, t.b * p.x + t.d * p.y + t.f⟩

/-- `kurbo::Affine::translate`. -/
def Affine.translate (dx dy : ℚ) : Affine := ⟨1, 0, 0, 1, dx, dy⟩

/-- `kurbo::PathEl`. -/
inductive PathEl where
  | moveTo (p : Pt)
  | lineTo (p : Pt)
  | quadTo (c p : Pt)
  | curveTo (c1 c2 p : Pt)
  | closePath
deriving DecidableEq, Repr

/-- A `PathEl` mapped through an affine transform (kurbo's
`Affine * BezPath` applies the transform to every control point). -/
def PathEl.transform (t : Affine) : PathEl → PathEl
  | PathEl.moveTo p => PathEl.moveTo (t.apply p)
  | PathEl.lineTo p => PathEl.lineTo (t.apply p)
  | PathEl.quadTo c p => PathEl.quadTo (t.apply c) (t.apply p)
  | PathEl.curveTo c1 c2 p =>
      PathEl.curveTo (t.apply c1) (t.apply c2) (t.apply p)
  | PathEl.closePath => PathEl.closePath

/-! ### Errors (`piet::Error`) and panics -/

/-- The subset of `piet::Error` variants this crate produces. An opaque
`BackendError` cause is carried as a numeric code. -/
inductive Pierror where
  | notSupported
  | unimplemented
  | stackUnbalance
  | fontLoadingFailed
  | backendError (code : ℕ)
deriving DecidableEq, Repr

/-- Outcome of running code that may hit a `todo!()` or a failing
`unwrap`/`expect`: either a panic or a returned value. -/
inductive Step (α : Type) where
  | panics
  | ret (value : α)
deriving DecidableEq, Repr

deriving instance DecidableEq for Except

/-! ### Clip masks (`struct Mask`) -/

/-- A device-space skia path, `shape_to_skia_path`'s output: the (already
transformed) path elements that were fed to the `tiny_skia::PathBuilder`. -/
structure SkPath where
  elems : List PathEl
deriving DecidableEq, Repr

/-- The state of a `tiny_skia::ClipMask`: the conjunction of all paths that
have been intersected into it (`set_path` then repeated `intersect_path`). -/
structure ClipData where
  paths : List SkPath
deriving DecidableEq, Repr

/-- `struct Mask<C>`: GPU mask texture handle, scratch pixmap dimensions,
the CPU clip mask, and the dirty flag. -/
structure Mask where
  texture : ℕ
  pixmapW : ℕ
  pixmapH : ℕ
  clip : ClipData
  dirty : Bool
deriving DecidableEq, Repr

/-- `Mask::upload`. When `dirty`, the code clears the pixmap, composites the
clip mask as a solid-white fill over it, and then calls
`self.texture.write_texture((w, h), RgbaSeparate, Some(todo!()))` — the data
argument is a literal `todo!()`, so execution panics before the texture is
written and before `dirty` is cleared. When not dirty it returns the texture
handle unchanged. -/
def Mask.upload (m : Mask) : Step (Mask × ℕ) :=
  if m.dirty then
    Step.panics
  else
    Step.ret (m, m.texture)

/-! ### Render state stack -/

/-- `struct RenderState<C>`: the current transform and optional clip mask. -/
structure RenderState where
  transform : Affine
  mask : Option Mask
deriving DecidableEq, Repr

/-- `impl Default for RenderState`: identity transform, no mask. -/
def RenderState.deflt : RenderState := ⟨Affine.identity, none⟩

/-! ### Vertices and the shared vertex/index buffer -/

/-- sRGB color with alpha, as four bytes (values `< 256` are not enforced
structurally; the claims do not depend on the range). -/
structure Color where
  r : ℕ
  g : ℕ
  b : ℕ
  al : ℕ
deriving DecidableEq, Repr

/-- `struct Vertex`: device-space position, texture coordinate, color. -/
structure Vertex where
  pos : Pt
  uv : Pt
  color : Color
deriving DecidableEq, Repr

/-- `kurbo::Rect` (x0, y0, x1, y1). -/
structure KRect where
  x0 : ℚ
  y0 : ℚ
  x1 : ℚ
  y1 : ℚ
deriving DecidableEq, Repr

/-- `lyon::VertexBuffers<Vertex, u32>`: shared vertex and index lists. -/
structure VB where
  vertices : List Vertex
  indices : List ℕ
deriving DecidableEq, Repr

/-! ### The render context (the fields the claims observe) -/

/-- The glyph-atlas-free part of `Source<C>` plus the atlas slot; GPU handles
are numeric ids. `buffers` is `Source.buffers.vertex_buffers`. -/
structure SourceState where
  whitePixel : ℕ
  buffers : VB
deriving DecidableEq, Repr

/-- `RenderContext<'_, C>` restricted to the state the claims are about:
the source, target size, state stack (head = top), status accumulator, and
a supply of fresh texture ids standing for `GpuContext::create_texture`. -/
structure RC where
  source : SourceState
  width : ℕ
  height : ℕ
  state : List RenderState
  status : Except Pierror Unit
  nextTex : ℕ
deriving DecidableEq, Repr

/-- `Source::render_context(width, height)`: one default state on the stack,
status `Ok(())`. -/
def mkContext (w h : ℕ) : RC :=
  ⟨⟨0, ⟨[], []⟩⟩, w, h, [RenderState.deflt], Except.ok (), 1⟩

/-- `RenderContext::save`: pushes `Default::default()` onto the state stack
and returns `Ok(())`. -/
def RC.save (ctx : RC) : RC × Except Pierror Unit :=
  ({ ctx with state := RenderState.deflt :: ctx.state }, Except.ok ())

/-- `RenderContext::restore`: error with `StackUnbalance` when at most one
entry remains (the stack is untouched); otherwise pop the top entry. -/
def RC.restore (ctx : RC) : RC × Except Pierror Unit :=
  if ctx.state.length ≤ 1 then
    (ctx, Except.error Pierror.stackUnbalance)
  else
    ({ ctx with state := ctx.state.tail }, Except.ok ())

/-- `RenderContext::transform`: left-multiply the top entry's transform
(`*slot = transform * *slot`). The stack is never empty in reachable
contexts; on an empty stack the Rust `unwrap` would panic, which no claim
exercises, so the context is returned unchanged there. -/
def RC.transformOp (ctx : RC) (t : Affine) : RC :=
  match ctx.state with
  | [] => ctx
  | s :: rest => { ctx with state := { s with transform := t.mul s.transform } :: rest }

/-- `RenderContext::current_transform`: the top entry's transform. -/
def RC.currentTransform (ctx : RC) : Affine :=
  match ctx.state with
  | [] => Affine.identity
  | s :: _ => s.transform

/-! ### Sequences of save/restore calls -/

/-- One stack operation: a `save()` or a `restore()` call. -/
inductive StackOp where
  | save
  | restore
deriving DecidableEq, Repr

/-- Apply one stack operation, discarding the returned `Result` (as a caller
that ignores the error would). -/
def RC.applyStackOp (ctx : RC) : StackOp → RC
  | StackOp.save => ctx.save.1
  | StackOp.restore => ctx.restore.1

/-- Run a sequence of save/restore calls. -/
def RC.runStackOps (ctx : RC) : List StackOp → RC
  | [] => ctx
  | op :: ops => (ctx.applyStackOp op).runStackOps ops

/-- A concrete mask value used in counterexamples. -/
def exMask : Mask := ⟨5, 4, 4, ⟨[⟨[PathEl.moveTo ⟨0, 0⟩]⟩]⟩, true⟩

/-- A concrete context whose top state has a non-identity transform and an
active clip mask (as after `transform(translate(1,2)); clip(shape)`). -/
def c2Ctx : RC :=
  { mkContext 4 4 with
    state := [⟨Affine.translate 1 2, some exMask⟩, RenderState.deflt] }

/-! ### Path Event Converter (`shape_to_lyon_path`) -/

/-- `lyon` path events as produced by the converter. The `f64 → f32` cast of
`convert_point` is the identity here since both sides are modelled as `ℚ`.
`endp` is lyon's `Event::End { last, first, close }`. -/
inductive PEvent where
  | begin (start : Pt)
  | line (src dst : Pt)
  | quadratic (src ctrl dst : Pt)
  | cubic (src ctrl1 ctrl2 dst : Pt)
  | endp (last first : Pt) (close : Bool)
deriving DecidableEq, Repr

/-- `f64::abs`, on the rational model of coordinates. -/
def ratAbs (q : ℚ) : ℚ := if q < 0 then -q else q

/-- `approx_eq`: `(a - b).abs() < 0.01`. -/
def approxEq (a b : ℚ) : Bool := ratAbs (a - b) < 1 / 100

/-- The mutable fields of `PathConverter` (the element iterator is handled
by recursion over the input list). -/
structure ConvState where
  last : Option Pt
  first : Option Pt
  needsClose : Bool
deriving DecidableEq, Repr

/-- The converter's initial state. -/
def ConvState.init : ConvState := ⟨none, none, false⟩

/-- The `close` closure inside `PathConverter::next`. Both `first` and
`last` are `take()`n unconditionally (the Rust tuple is built before the
pattern match); an `End` event is emitted only when both were set, the
first/last points differ beyond the 0.01 tolerance in some coordinate, and
the subpath has an edge pending (`needs_close`) or an explicit close was
requested. -/
def closeFn (st : ConvState) (closeFlag : Bool) : ConvState × Option PEvent :=
  let f := st.first
  let l := st.last
  let st1 : ConvState := { st with first := none, last := none }
  match f, l with
  | some first, some last =>
      if (!approxEq first.x last.x || !approxEq first.y last.y) &&
          (st1.needsClose || closeFlag) then
        ({ st1 with needsClose := false }, some (PEvent.endp last first closeFlag))
      else
        (st1, none)
  | _, _ => (st1, none)

/-- One step of `PathConverter::next` on a path element. `none` models the
panic of `self.last.replace(pt).expect("last point should be set")` when an
edge command arrives before any `MoveTo`. -/
def convStep (st : ConvState) : PathEl → Option (ConvState × List PEvent)
  | PathEl.moveTo pt =>
      let (st1, ev) := closeFn st false
      some ({ st1 with first := some pt, last := some pt },
        ev.toList ++ [PEvent.begin pt])
  | PathEl.lineTo pt =>
      let st1 : ConvState := { st with needsClose := true }
      match st1.last with
      | none => none
      | some src => some ({ st1 with last := some pt }, [PEvent.line src pt])
  | PathEl.quadTo c pt =>
      let st1 : ConvState := { st with needsClose := true }
      match st1.last with
      | none => none
      | some src => some ({ st1 with last := some pt }, [PEvent.quadratic src c pt])
  | PathEl.curveTo c1 c2 pt =>
      let st1 : ConvState := { st with needsClose := true }
      match st1.last with
      | none => none
      | some src =>
          some ({ st1 with last := some pt }, [PEvent.cubic src c1 c2 pt])
  | PathEl.closePath =>
      let (st1, ev) := closeFn st true
      some (st1, ev.toList)

/-- End of the element iterator: `close(self, false)` synthesizes at most
one final event. -/
def convFinish (st : ConvState) : List PEvent :=
  (closeFn st false).2.toList

/-- Run the converter over a list of path elements from a given state,
collecting the flattened event stream; `none` models a panic. -/
def convertFrom (st : ConvState) : List PathEl → Option (List PEvent)
  | [] => some (convFinish st)
  | el :: els =>
      match convStep st el with
      | none => none
      | some (st1, evs) => (convertFrom st1 els).map (fun rest => evs ++ rest)

/-- The full converter, `shape_to_lyon_path`, on a path element list. -/
def convert (els : List PathEl) : Option (List PEvent) :=
  convertFrom ConvState.init els

/-- A triangle whose last point returns to its first point exactly, then an
explicit `ClosePath` — the already-closed subpath of claims C4/C7. -/
def closedTriangle : List PathEl :=
  [PathEl.moveTo ⟨0, 0⟩, PathEl.lineTo ⟨1, 0⟩, PathEl.lineTo ⟨0, 0⟩,
    PathEl.closePath]

/-- An open path whose `ClosePath` has to add a closing edge. -/
def openAngle : List PathEl :=
  [PathEl.moveTo ⟨0, 0⟩, PathEl.lineTo ⟨3, 0⟩, PathEl.closePath]

/-- The event stream the converter produces for `closedTriangle`. -/
def closedTriangleEvents : List PEvent :=
  [PEvent.begin ⟨0, 0⟩, PEvent.line ⟨0, 0⟩ ⟨1, 0⟩, PEvent.line ⟨1, 0⟩ ⟨0, 0⟩]

/-- `true` on the `Begin` events of a stream. -/
def isBegin : PEvent → Bool
  | PEvent.begin _ => true
  | _ => false

/-- `true` on the `End` events of a stream. -/
def isEnd : PEvent → Bool
  | PEvent.endp _ _ _ => true
  | _ => false

/-! ### `RenderContext::fill_rects`: buffer extension -/

/-- The four corner vertices the `vertices` closure of `fill_rects` builds
for one (position rect, uv rect, color) triple. -/
def rectVertices (posR uvR : KRect) (color : Color) : List Vertex :=
  [⟨⟨posR.x0, posR.y0⟩, ⟨uvR.x0, uvR.y0⟩, color⟩,
   ⟨⟨posR.x1, posR.y0⟩, ⟨uvR.x1, uvR.y0⟩, color⟩,
   ⟨⟨posR.x1, posR.y1⟩, ⟨uvR.x1, uvR.y1⟩, color⟩,
   ⟨⟨posR.x0, posR.y1⟩, ⟨uvR.x0, uvR.y1⟩, color⟩]

/-- The six indices `fill_rects` emits for rectangle number `i`:
`base = i * 4` and `[base, base + 1, base + 2, base, base + 2, base + 3]`. -/
def rectIndices (i : ℕ) : List ℕ :=
  [i * 4, i * 4 + 1, i * 4 + 2, i * 4, i * 4 + 2, i * 4 + 3]

/-- The buffer-extension phase of `RenderContext::fill_rects`: extend the
shared vertex list by every rectangle's four corners and the shared index
list by the six indices of each `i < rect_count`. (`rect_count` equals the
number of rectangles because the first `extend` fully consumes the vertex
iterator before the index iterator is built.) -/
def fillRectsAppend (buf : VB) (rects : List (KRect × KRect × Color)) : VB :=
  ⟨buf.vertices ++ rects.flatMap (fun r => rectVertices r.1 r.2.1 r.2.2),
   buf.indices ++ (List.range rects.length).flatMap rectIndices⟩

/-- A concrete rectangle and color for witnesses. -/
def exRect : KRect := ⟨0, 0, 1, 1⟩

/-- Opaque red. -/
def exColor : Color := ⟨255, 0, 0, 255⟩

/-! ### `clip`, `push_buffers`, `fill`/`stroke`, and the status accumulator

The GPU backend (`GpuContext`) is modelled as infallible — `create_texture`
hands out fresh numeric ids and `push_buffers` succeeds — since none of the
claims settled here concern backend failures. The lyon tessellator is an
external black box (spec §1): its effect on the shared buffer and its
result are passed in as explicit parameters. -/

/-- Extract the value of a non-panicking `Step`, with a default. -/
def Step.getD (s : Step α) (d : α) : α :=
  match s with
  | Step.panics => d
  | Step.ret v => v

/-- `RenderContext::clip`. The shape is transformed by the active transform
and fed to the skia path builder. If the top state already has a mask, the
path is `intersect_path`-ed into its clip mask — note the code does not set
`dirty` on this branch. Otherwise a fresh mask is installed: a new GPU
texture, a viewport-sized pixmap, the clip set from the path, and
`dirty = true`. -/
def RC.clip (ctx : RC) (shape : List PathEl) : RC :=
  match ctx.state with
  | [] => ctx
  | s :: rest =>
    let path : SkPath := ⟨shape.map (PathEl.transform s.transform)⟩
    match s.mask with
    | some m =>
        { ctx with state :=
            { s with mask := some { m with clip := ⟨m.clip.paths ++ [path]⟩ } }
              :: rest }
    | none =>
        let m : Mask := ⟨ctx.nextTex, ctx.width, ctx.height, ⟨[path]⟩, true⟩
        { ctx with
            state := { s with mask := some m } :: rest,
            nextTex := ctx.nextTex + 1 }

/-- `RenderContext::push_buffers`: upload the shared buffers to the VBO,
upload the top state's mask if one is present (the white pixel is used
otherwise), then issue `GpuContext::push_buffers`. The backend's response
for this draw is the `pushResult` parameter (its opaque error is a numeric
code, wrapped into `BackendError` by `piet_err`); only after a successful
draw are both shared buffers cleared — an early error return leaves them
filled. A dirty mask makes `Mask::upload` hit its `todo!()`, so the whole
call panics. -/
def RC.pushBuffers (ctx : RC) (pushResult : Except ℕ Unit) :
    Step (RC × Except Pierror Unit) :=
  match ctx.state with
  | [] => Step.panics
  | s :: rest =>
    match s.mask with
    | some m =>
        match m.upload with
        | Step.panics => Step.panics
        | Step.ret (m2, _tex) =>
            let ctx1 := { ctx with state := { s with mask := some m2 } :: rest }
            match pushResult with
            | Except.error e =>
                Step.ret (ctx1, Except.error (Pierror.backendError e))
            | Except.ok _ =>
                Step.ret
                  ({ ctx1 with
                      source := { ctx1.source with buffers := ⟨[], []⟩ } },
                   Except.ok ())
    | none =>
        match pushResult with
        | Except.error e =>
            Step.ret (ctx, Except.error (Pierror.backendError e))
        | Except.ok _ =>
            Step.ret
              ({ ctx with source := { ctx.source with buffers := ⟨[], []⟩ } },
               Except.ok ())

/-- `RenderContext::fill_impl` (and `stroke_impl` after its dash check):
the tessellator appends `tessAppend` to the shared buffers and returns
`tessResult`; on tessellation success the buffers are pushed to the GPU. -/
def RC.fillImpl (ctx : RC) (tessAppend : List Vertex × List ℕ)
    (tessResult : Except Pierror Unit) (pushResult : Except ℕ Unit) :
    Step (RC × Except Pierror Unit) :=
  let ctx1 := { ctx with source := { ctx.source with buffers :=
      ⟨ctx.source.buffers.vertices ++ tessAppend.1,
       ctx.source.buffers.indices ++ tessAppend.2⟩ } }
  match tessResult with
  | Except.error e => Step.ret (ctx1, Except.error e)
  | Except.ok _ => ctx1.pushBuffers pushResult

/-- `RenderContext::fill` (trait method): run `fill_impl` and store any
error in the status accumulator — `self.status = Err(e)`, unconditionally
overwriting whatever was there. -/
def RC.fill (ctx : RC) (tessAppend : List Vertex × List ℕ)
    (tessResult : Except Pierror Unit) (pushResult : Except ℕ Unit) :
    Step RC :=
  match ctx.fillImpl tessAppend tessResult pushResult with
  | Step.panics => Step.panics
  | Step.ret (ctx1, Except.error e) =>
      Step.ret { ctx1 with status := Except.error e }
  | Step.ret (ctx1, Except.ok _) => Step.ret ctx1

/-- `RenderContext::stroke_impl`: a non-empty dash pattern fails up front
with `NotSupported`; otherwise tessellate-and-push like `fill_impl`. -/
def RC.strokeImpl (ctx : RC) (dashPattern : List ℚ)
    (tessAppend : List Vertex × List ℕ) (tessResult : Except Pierror Unit)
    (pushResult : Except ℕ Unit) : Step (RC × Except Pierror Unit) :=
  if dashPattern.isEmpty then
    ctx.fillImpl tessAppend tessResult pushResult
  else
    Step.ret (ctx, Except.error Pierror.notSupported)

/-- `RenderContext::stroke_styled` (trait method): run `stroke_impl` and
store any error into the status accumulator, overwriting it. -/
def RC.strokeStyled (ctx : RC) (dashPattern : List ℚ)
    (tessAppend : List Vertex × List ℕ) (tessResult : Except Pierror Unit)
    (pushResult : Except ℕ Unit) : Step RC :=
  match ctx.strokeImpl dashPattern tessAppend tessResult pushResult with
  | Step.panics => Step.panics
  | Step.ret (ctx1, Except.error e) =>
      Step.ret { ctx1 with status := Except.error e }
  | Step.ret (ctx1, Except.ok _) => Step.ret ctx1

/-- `RenderContext::status`: `mem::replace(&mut self.status, Ok(()))` —
return the stored result and reset the accumulator to `Ok`. -/
def RC.statusOp (ctx : RC) : Except Pierror Unit × RC :=
  (ctx.status, { ctx with status := Except.ok () })

/-- Axis-aligned unit square at the origin, as a path. -/
def c1RectA : List PathEl :=
  [PathEl.moveTo ⟨0, 0⟩, PathEl.lineTo ⟨1, 0⟩, PathEl.lineTo ⟨1, 1⟩,
    PathEl.lineTo ⟨0, 1⟩, PathEl.closePath]

/-- Axis-aligned unit square at (2,2) — disjoint from `c1RectA`. -/
def c1RectB : List PathEl :=
  [PathEl.moveTo ⟨2, 2⟩, PathEl.lineTo ⟨3, 2⟩, PathEl.lineTo ⟨3, 3⟩,
    PathEl.lineTo ⟨2, 3⟩, PathEl.closePath]

/-! ### Glyph atlas (`Atlas::uv_rect`) and `draw_text`

The glyph rasterizer (`ab_glyph`: font parsing, outline lookup, coverage
drawing) and the `etagere` bin-packing allocator are external collaborators;
they enter as the `raster` and `allocate` function parameters, the latter
over an abstract allocator-state type. -/

/-- `cosmic_text::CacheKey`: glyph identity — font id, glyph id, integer
font size, and subpixel bin. -/
structure CacheKey where
  fontId : ℕ
  glyphId : ℕ
  fontSize : ℤ
  xBin : ℕ
  yBin : ℕ
deriving DecidableEq, Repr

/-- The fields of `cosmic_text::LayoutGlyph` that `uv_rect` reads: the
advance width `w` (an `f32`) and the cache key. -/
structure LayoutGlyph where
  w : ℚ
  cacheKey : CacheKey
deriving DecidableEq, Repr

/-- An `etagere::Allocation`: the reserved integer rectangle. -/
structure Allocation where
  minX : ℤ
  minY : ℤ
  maxX : ℤ
  maxY : ℤ
deriving DecidableEq, Repr

/-- One logged `write_subtexture` call: offset, size, pixel data. -/
structure SubtexWrite where
  offX : ℤ
  offY : ℤ
  sizeW : ℤ
  sizeH : ℤ
  data : List ℕ
deriving DecidableEq, Repr

/-- `struct Atlas<C>` over an abstract allocator-state type `A`: the shared
texture handle (`Rc<Texture<C>>` as a numeric id), the atlas dimensions,
the `etagere` allocator's state, the glyph → allocation `HashMap` (as an
association list), and the log of texture writes performed. -/
structure AtlasState (A : Type) where
  texture : ℕ
  sizeW : ℕ
  sizeH : ℕ
  allocator : A
  glyphs : List (CacheKey × Allocation)
  writes : List SubtexWrite
deriving DecidableEq, Repr

/-- The `alloc_to_rect` closure: the allocation rectangle normalized by the
atlas dimensions. -/
def allocToRect (w h : ℕ) (alloc : Allocation) : KRect :=
  ⟨(alloc.minX : ℚ) / (w : ℚ), (alloc.minY : ℚ) / (h : ℚ),
   (alloc.maxX : ℚ) / (w : ℚ), (alloc.maxY : ℚ) / (h : ℚ)⟩

/-- An `as i32` cast: truncation toward zero. -/
def truncQ (q : ℚ) : ℤ := if q < 0 then -Int.floor (-q) else Int.floor q

/-- `Atlas::uv_rect`. On a cache hit the stored allocation's rectangle is
returned with no state change. On a miss the glyph is rasterized into a
`glyph.w as i32 × cache_key.font_size` buffer (`raster`; its failures are
`FontLoadingFailed`-style errors), a region is requested from the allocator
(failing with the "Failed to allocate glyph in texture atlas." backend
error, code 0 here, when no space remains), the bitmap is written into the
reserved sub-region, and the key → allocation mapping is recorded. The
returned `Bool` reports which branch ran (`true` = the rasterizing `Vacant`
branch). -/
def Atlas.uvRect {A : Type} (raster : LayoutGlyph → Except Pierror (List ℕ))
    (allocate : A → ℤ × ℤ → Option (Allocation × A))
    (a : AtlasState A) (glyph : LayoutGlyph) :
    Except Pierror (KRect × AtlasState A × Bool) :=
  match a.glyphs.lookup glyph.cacheKey with
  | some alloc => Except.ok (allocToRect a.sizeW a.sizeH alloc, a, false)
  | none =>
      match raster glyph with
      | Except.error e => Except.error e
      | Except.ok buffer =>
          match allocate a.allocator (truncQ glyph.w, glyph.cacheKey.fontSize) with
          | none => Except.error (Pierror.backendError 0)
          | some (alloc, allocator2) =>
              Except.ok (allocToRect a.sizeW a.sizeH alloc,
                { a with
                    allocator := allocator2,
                    glyphs := (glyph.cacheKey, alloc) :: a.glyphs,
                    writes := a.writes ++
                      [⟨alloc.minX, alloc.minY, alloc.maxX - alloc.minX,
                        alloc.maxY - alloc.minY, buffer⟩] },
                true)

/-- A render context together with the `Source`'s atlas slot
(`Source.atlas : Option<Atlas<C>>`). -/
structure TextCtx (A : Type) where
  rc : RC
  atlas : Option (AtlasState A)
deriving DecidableEq, Repr

/-- The glyph loop of `draw_text` (the `filter_map` over layout glyphs):
look up each glyph's UV rectangle in the checked-out atlas, skipping — with
an error log only — glyphs whose `uv_rect` fails, and collect the
(position rect, uv rect, color) triples for `fill_rects`. Positions and
colors come precomputed from the text layout (an external collaborator). -/
def processGlyphs {A : Type} (raster : LayoutGlyph → Except Pierror (List ℕ))
    (allocate : A → ℤ × ℤ → Option (Allocation × A)) (atlas : AtlasState A) :
    List (LayoutGlyph × KRect × Color) →
      AtlasState A × List (KRect × KRect × Color)
  | [] => (atlas, [])
  | (g, posRect, color) :: rest =>
      match Atlas.uvRect raster allocate atlas g with
      | Except.error _ => processGlyphs raster allocate atlas rest
      | Except.ok (uvRect, atlas2, _) =>
          let out := processGlyphs raster allocate atlas2 rest
          (out.1, (posRect, uvRect, color) :: out.2)

/-- `RenderContext::fill_rects` as one operation: extend the shared buffers
with the rectangles' vertices and indices, then `push_buffers`. -/
def RC.fillRectsOp (ctx : RC) (rects : List (KRect × KRect × Color))
    (pushResult : Except ℕ Unit) : Step (RC × Except Pierror Unit) :=
  let ctx1 := { ctx with source := { ctx.source with
      buffers := fillRectsAppend ctx.source.buffers rects } }
  ctx1.pushBuffers pushResult

/-- `RenderContext::draw_text`. The atlas is `take()`n out of the source
(panicking, like the code's `unwrap`, if it was absent), the glyph
rectangles are produced while the atlas is checked out, and `fill_rects`
pushes them with the atlas texture. `RestoreAtlas::drop` then puts the
atlas back into the source — before `leap!` looks at the result — so the
slot is `Some` again on the error path as well. (A Rust panic would also
restore the atlas during unwind; here a panic is just `Step.panics`.) The
`leap!` records a failed fill into the status accumulator. -/
def RC.drawText {A : Type} (raster : LayoutGlyph → Except Pierror (List ℕ))
    (allocate : A → ℤ × ℤ → Option (Allocation × A)) (tc : TextCtx A)
    (glyphs : List (LayoutGlyph × KRect × Color)) (pushResult : Except ℕ Unit) :
    Step (TextCtx A) :=
  match tc.atlas with
  | none => Step.panics
  | some atlas =>
      let processed := processGlyphs raster allocate atlas glyphs
      match RC.fillRectsOp tc.rc processed.2 pushResult with
      | Step.panics => Step.panics
      | Step.ret (rc2, Except.error e) =>
          Step.ret ⟨{ rc2 with status := Except.error e }, some processed.1⟩
      | Step.ret (rc2, Except.ok _) => Step.ret ⟨rc2, some processed.1⟩

/-- A concrete glyph key. -/
def exKey : CacheKey := ⟨1, 2, 3, 0, 0⟩

/-- A concrete glyph. -/
def exGlyph : LayoutGlyph := ⟨2, exKey⟩

/-- A concrete atlas allocation. -/
def exAllocation : Allocation := ⟨0, 0, 2, 3⟩

/-- A rasterizer that always succeeds with a one-pixel buffer. -/
def exRaster : LayoutGlyph → Except Pierror (List ℕ) :=
  fun _ => Except.ok [1]

/-- An allocator over `ℕ` state that always hands out the requested size at
the origin. -/
def exAllocate : ℕ → ℤ × ℤ → Option (Allocation × ℕ) :=
  fun st wh => some (⟨0, 0, wh.1, wh.2⟩, st + 1)

/-- A concrete atlas that already caches `exKey`. -/
def exAtlas : AtlasState ℕ := ⟨7, 16, 16, 0, [(exKey, exAllocation)], []⟩

/-- A concrete text-drawing context. -/
def c9Tc : TextCtx ℕ := ⟨mkContext 4 4, some exAtlas⟩

/-- `draw_text` on `c9Tc` with no glyphs and a failing GPU submission. -/
def c9Result : TextCtx ℕ :=
  (RC.drawText exRaster exAllocate c9Tc [] (Except.error 3)).getD c9Tc

end PietGpu

namespace PietGpu

/-! ### Helper lemmas -/

/-- `kurbo::Affine` multiplication is associative. -/
theorem Affine.mul_assoc (s o t : Affine) :
    (s.mul o).mul t = s.mul (o.mul t) := by
  simp only [Affine.mul, Affine.mk.injEq]
  refine ⟨by ring, by ring, by ring, by ring, by ring, by ring⟩

/-- Applying a product applies the right factor first. -/
theorem Affine.apply_mul (s o : Affine) (p : Pt) :
    (s.mul o).apply p = s.apply (o.apply p) := by
  simp only [Affine.mul, Affine.apply, Pt.mk.injEq]
  exact ⟨by ring, by ring⟩

/-- Save and restore keep the stack nonempty and never touch its bottom
(base) entry. -/
theorem runStackOps_base (ctx : RC) (ops : List StackOp) (h : ctx.state ≠ []) :
    (ctx.runStackOps ops).state ≠ [] ∧
      (ctx.runStackOps ops).state.getLast? = ctx.state.getLast? := by
  induction ops generalizing ctx with
  | nil => exact ⟨h, rfl⟩
  | cons op ops ih =>
    obtain ⟨b, t, hbt⟩ : ∃ b t, ctx.state = b :: t := by
      cases hst : ctx.state with
      | nil => exact absurd hst h
      | cons b t => exact ⟨b, t, rfl⟩
    have step : (ctx.applyStackOp op).state ≠ [] ∧
        (ctx.applyStackOp op).state.getLast? = ctx.state.getLast? := by
      cases op with
      | save =>
        refine ⟨by simp [RC.applyStackOp, RC.save], ?_⟩
        simp only [RC.applyStackOp, RC.save, hbt]
        exact List.getLast?_cons_cons ..
      | restore =>
        by_cases hl : ctx.state.length ≤ 1
        · simp [RC.applyStackOp, RC.restore, hl, h]
        · cases t with
          | nil => simp [hbt] at hl
          | cons c u =>
            refine ⟨?_, ?_⟩ <;>
              simp [RC.applyStackOp, RC.restore, hl, hbt, List.getLast?_cons_cons]
    have := ih (ctx.applyStackOp op) step.1
    exact ⟨this.1, this.2.trans step.2⟩

/-! ### Claim theorems -/

/-- **C2, counterexample.** On a context whose top state has transform
`translate(1,2)` and an active clip mask, `save()` does not preserve the
current transform (it becomes the identity) and the new top entry has no
clip mask at all, so the pre-save mask no longer restricts draws. -/
theorem C2_counterexample :
    c2Ctx.save.1.currentTransform ≠ c2Ctx.currentTransform ∧
      c2Ctx.save.1.state.head?.map RenderState.mask = some none ∧
      c2Ctx.currentTransform = Affine.translate 1 2 ∧
      (c2Ctx.state.head?.map RenderState.mask) = some (some exMask) := by
  refine ⟨?_, rfl, rfl, rfl⟩
  simp [c2Ctx, RC.save, RC.currentTransform, RenderState.deflt,
    Affine.identity, Affine.translate]

/-- **C2, amended.** `save()` pushes a fresh default entry — identity
transform, no clip mask — on top of the stack (not a copy of the pre-save
entry); it always succeeds, and the pre-save entries are preserved
unchanged beneath the new top. -/
theorem C2_amended_save_pushes_default (ctx : RC) :
    ctx.save.2 = Except.ok () ∧
      ctx.save.1.state = RenderState.deflt :: ctx.state ∧
      ctx.save.1.currentTransform = Affine.identity ∧
      ctx.save.1.state.head?.map RenderState.mask = some none := by
  refine ⟨rfl, rfl, rfl, rfl⟩

/-- **C5.** `transform(m)` left-multiplies the active transform, so after
`transform(A); transform(B)` the active transform is `(B∘A)` composed after
the pre-existing transform, and the device-space image of a point is
obtained by applying the old transform, then `A`, then `B`. -/
theorem C5_transform_left_multiplies (ctx : RC) (s : RenderState)
    (rest : List RenderState) (h : ctx.state = s :: rest) (A B : Affine) (p : Pt) :
    (ctx.transformOp A).currentTransform = A.mul ctx.currentTransform ∧
      ((ctx.transformOp A).transformOp B).currentTransform =
        (B.mul A).mul s.transform ∧
      (((ctx.transformOp A).transformOp B).currentTransform).apply p =
        B.apply (A.apply (s.transform.apply p)) := by
  refine ⟨?_, ?_, ?_⟩ <;>
    simp [RC.transformOp, RC.currentTransform, h, Affine.mul_assoc,
      Affine.apply_mul]

/-- **C5, witness.** -/
theorem C5_transform_left_multiplies_witness :
    RC.currentTransform
        (((mkContext 4 4).transformOp (Affine.translate 1 2)).transformOp
          ⟨2, 0, 0, 2, 0, 0⟩) =
      (Affine.mul ⟨2, 0, 0, 2, 0, 0⟩ (Affine.translate 1 2)).mul
        RenderState.deflt.transform := by
  exact (C5_transform_left_multiplies (mkContext 4 4) RenderState.deflt []
    rfl (Affine.translate 1 2) ⟨2, 0, 0, 2, 0, 0⟩ ⟨3, 5⟩).2.1

/-- **C6.** After any sequence of save/restore calls on a fresh context,
`restore()` fails with `StackUnbalance` exactly when only the base entry
remains; in that failing case the whole context (hence the stack) is
unchanged, and the base entry created at construction — default transform
and no clip — is still at the bottom of the stack. -/
theorem C6_restore_unbalance (w h : ℕ) (ops : List StackOp) :
    ((RC.runStackOps (mkContext w h) ops).restore.2 =
        Except.error Pierror.stackUnbalance ↔
      (RC.runStackOps (mkContext w h) ops).state.length = 1) ∧
      ((RC.runStackOps (mkContext w h) ops).state.length = 1 →
        (RC.runStackOps (mkContext w h) ops).restore =
          ((RC.runStackOps (mkContext w h) ops),
            Except.error Pierror.stackUnbalance)) ∧
      (RC.runStackOps (mkContext w h) ops).state.getLast? =
        some RenderState.deflt := by
  obtain ⟨hne, hbase⟩ :=
    runStackOps_base (mkContext w h) ops (by simp [mkContext])
  set ctx := RC.runStackOps (mkContext w h) ops with hctx
  refine ⟨?_, ?_, ?_⟩
  · constructor
    · intro herr
      by_cases hl : ctx.state.length ≤ 1
      · have h1 : 1 ≤ ctx.state.length := by
          cases hs : ctx.state with
          | nil => exact absurd hs hne
          | cons a t => simp [hs]
        omega
      · simp [RC.restore, hl] at herr
    · intro h1
      simp [RC.restore, h1]
  · intro h1
    simp [RC.restore, h1]
  · exact hbase.trans (by simp [mkContext])

/-- **C6, witness.** `save(); restore(); restore()` on a fresh context: the
final `restore` hits the base entry and fails with `StackUnbalance`. -/
theorem C6_restore_unbalance_witness :
    (RC.runStackOps (mkContext 4 4)
        [StackOp.save, StackOp.restore]).restore.2 =
      Except.error Pierror.stackUnbalance := by
  exact (C6_restore_unbalance 4 4 [StackOp.save, StackOp.restore]).1.mpr
    (by decide)

/-- The `close` closure either emits nothing, or emits one `End` event whose
first and last points are at least 0.01 apart in some coordinate. -/
theorem closeFn_snd (st : ConvState) (c : Bool) :
    (closeFn st c).2 = none ∨
      ∃ l f, (closeFn st c).2 = some (PEvent.endp l f c) ∧
        ¬ (approxEq f.x l.x ∧ approxEq f.y l.y) := by
  unfold closeFn
  cases hf : st.first with
  | none => exact Or.inl rfl
  | some f =>
    cases hl : st.last with
    | none => exact Or.inl rfl
    | some l =>
      by_cases hcond : ((!approxEq f.x l.x || !approxEq f.y l.y) &&
          (st.needsClose || c)) = true
      · refine Or.inr ⟨l, f, ?_, ?_⟩
        · dsimp only
          split
          next => rfl
          next hno => exact absurd hcond hno
        · rintro ⟨h1, h2⟩
          simp only [Bool.and_eq_true, Bool.or_eq_true,
            Bool.not_eq_true'] at hcond
          rcases hcond.1 with hx | hx <;> simp_all
      · refine Or.inl ?_
        dsimp only
        split
        next hyes => exact absurd hyes hcond
        next => rfl

/-- Every event of a single converter step is accounted for: `End` events
keep first/last separated by the tolerance, and `Line` events copy their
destination from an explicit `LineTo` element. -/
theorem convStep_events (st : ConvState) (el : PathEl) (st1 : ConvState)
    (evs : List PEvent) (h : convStep st el = some (st1, evs)) :
    (∀ l f c, PEvent.endp l f c ∈ evs →
        ¬ (approxEq f.x l.x ∧ approxEq f.y l.y)) ∧
      (∀ a b, PEvent.line a b ∈ evs → el = PathEl.lineTo b) := by
  cases el with
  | moveTo pt =>
    rcases closeFn_snd st false with hev | ⟨l2, f2, hev, hsep⟩
    · simp only [convStep, hev, Option.toList, List.nil_append,
        Option.some.injEq, Prod.mk.injEq] at h
      obtain ⟨-, hevs⟩ := h
      subst hevs
      refine ⟨?_, ?_⟩
      · intro l f c hmem
        simp at hmem
      · intro a b hmem
        simp at hmem
    · simp only [convStep, hev, Option.toList, List.cons_append,
        List.nil_append, Option.some.injEq, Prod.mk.injEq] at h
      obtain ⟨-, hevs⟩ := h
      subst hevs
      refine ⟨?_, ?_⟩
      · intro l f c hmem
        simp only [List.mem_cons, List.mem_singleton] at hmem
        rcases hmem with hmem | hmem
        · injection hmem with h1 h2 h3
          subst h1
          subst h2
          exact hsep
        · exact absurd hmem (by simp)
      · intro a b hmem
        simp at hmem
  | lineTo pt =>
    cases hl : st.last with
    | none => simp [convStep, hl] at h
    | some src =>
      simp only [convStep, hl, Option.some.injEq, Prod.mk.injEq] at h
      obtain ⟨-, hevs⟩ := h
      subst hevs
      refine ⟨?_, ?_⟩
      · intro l f c hmem
        simp at hmem
      · intro a b hmem
        simp only [List.mem_singleton] at hmem
        injection hmem with h1 h2
        rw [h2]
  | quadTo c0 pt =>
    cases hl : st.last with
    | none => simp [convStep, hl] at h
    | some src =>
      simp only [convStep, hl, Option.some.injEq, Prod.mk.injEq] at h
      obtain ⟨-, hevs⟩ := h
      subst hevs
      refine ⟨?_, ?_⟩
      · intro l f c hmem
        simp at hmem
      · intro a b hmem
        simp at hmem
  | curveTo c1 c2 pt =>
    cases hl : st.last with
    | none => simp [convStep, hl] at h
    | some src =>
      simp only [convStep, hl, Option.some.injEq, Prod.mk.injEq] at h
      obtain ⟨-, hevs⟩ := h
      subst hevs
      refine ⟨?_, ?_⟩
      · intro l f c hmem
        simp at hmem
      · intro a b hmem
        simp at hmem
  | closePath =>
    rcases closeFn_snd st true with hev | ⟨l2, f2, hev, hsep⟩
    · simp only [convStep, hev, Option.toList, Option.some.injEq,
        Prod.mk.injEq] at h
      obtain ⟨-, hevs⟩ := h
      subst hevs
      refine ⟨?_, ?_⟩
      · intro l f c hmem
        simp at hmem
      · intro a b hmem
        simp at hmem
    · simp only [convStep, hev, Option.toList, Option.some.injEq,
        Prod.mk.injEq] at h
      obtain ⟨-, hevs⟩ := h
      subst hevs
      refine ⟨?_, ?_⟩
      · intro l f c hmem
        simp only [List.mem_singleton] at hmem
        injection hmem with h1 h2 h3
        subst h1
        subst h2
        exact hsep
      · intro a b hmem
        simp at hmem

/-- **C4, counterexample.** On a triangle whose last point already returns
to its first point, the explicit `ClosePath` emits no `End` event at all:
the output holds one `Begin` and zero `End` events, so the close does not
"always emit `End(closed=true)`" and this `Begin` is never matched. -/
theorem C4_counterexample :
    convert closedTriangle = some closedTriangleEvents ∧
      closedTriangleEvents.countP isBegin = 1 ∧
      closedTriangleEvents.countP isEnd = 0 := by
  refine ⟨?_, by decide, by decide⟩
  norm_num [convert, convertFrom, convStep, closeFn, convFinish,
    ConvState.init, closedTriangle, closedTriangleEvents, approxEq, ratAbs]

/-- **C4, amended.** A `ClosePath` command emits `End(closed=true)` for the
terminated subpath exactly when the subpath's first and last points differ
by at least 0.01 in some coordinate; when they already coincide within
tolerance (or no subpath is open) no `End` event is emitted at all, so the
subpath's `Begin` is left without a matching `End`. -/
theorem C4_close_end_iff_separated (f l : Pt) (nc : Bool) :
    (convStep ⟨some l, some f, nc⟩ PathEl.closePath =
      if !approxEq f.x l.x || !approxEq f.y l.y then
        some (⟨none, none, false⟩, [PEvent.endp l f true])
      else some (⟨none, none, nc⟩, [])) ∧
      convStep ⟨some l, none, nc⟩ PathEl.closePath =
        some (⟨none, none, nc⟩, []) ∧
      convStep ⟨none, none, nc⟩ PathEl.closePath =
        some (⟨none, none, nc⟩, []) := by
  refine ⟨?_, rfl, rfl⟩
  by_cases hd : (!approxEq f.x l.x || !approxEq f.y l.y) = true
  · simp [convStep, closeFn, hd]
  · simp only [Bool.not_eq_true] at hd
    simp [convStep, closeFn, hd]

/-- **C7.** The converter never emits a duplicate closing edge: every `End`
event it produces has first and last points at least 0.01 apart in some
coordinate (so no `End` — closing edge — is produced for a subpath that is
already closed within tolerance), and every `Line` event comes from an
explicit `LineTo` element of the input, never from close handling. -/
theorem C7_no_duplicate_closing_edge (els : List PathEl) (st : ConvState)
    (evs : List PEvent) (h : convertFrom st els = some evs) :
    (∀ l f c, PEvent.endp l f c ∈ evs →
        ¬ (approxEq f.x l.x ∧ approxEq f.y l.y)) ∧
      (∀ a b, PEvent.line a b ∈ evs → PathEl.lineTo b ∈ els) := by
  induction els generalizing st evs with
  | nil =>
    simp only [convertFrom, Option.some.injEq] at h
    subst h
    refine ⟨?_, ?_⟩
    · intro l f c hmem
      unfold convFinish at hmem
      rcases closeFn_snd st false with hev | ⟨l2, f2, hev, hsep⟩
      · simp [hev] at hmem
      · simp only [hev, Option.toList, List.mem_singleton] at hmem
        injection hmem with h1 h2 h3
        subst h1
        subst h2
        exact hsep
    · intro a b hmem
      unfold convFinish at hmem
      rcases closeFn_snd st false with hev | ⟨l2, f2, hev, -⟩ <;>
        simp [hev] at hmem
  | cons el els ih =>
    simp only [convertFrom] at h
    cases hstep : convStep st el with
    | none =>
      rw [hstep] at h
      simp at h
    | some pair =>
      obtain ⟨st1, evs1⟩ := pair
      rw [hstep] at h
      dsimp only at h
      cases hrest : convertFrom st1 els with
      | none =>
        rw [hrest] at h
        simp at h
      | some evs2 =>
        rw [hrest] at h
        simp only [Option.map, Option.some.injEq] at h
        subst h
        obtain ⟨hstepEnd, hstepLine⟩ := convStep_events st el st1 evs1 hstep
        obtain ⟨hihEnd, hihLine⟩ := ih st1 evs2 hrest
        refine ⟨?_, ?_⟩
        · intro l f c hmem
          rcases List.mem_append.mp hmem with hm | hm
          · exact hstepEnd l f c hm
          · exact hihEnd l f c hm
        · intro a b hmem
          rcases List.mem_append.mp hmem with hm | hm
          · rw [← hstepLine a b hm]
            exact List.mem_cons_self el els
          · exact List.mem_cons_of_mem el (hihLine a b hm)

/-- **C7, witness.** On `openAngle` the converter emits
`End((3,0), (0,0), close=true)`, and indeed those first/last points are more
than 0.01 apart. -/
theorem C7_no_duplicate_closing_edge_witness :
    ¬ (approxEq (Pt.mk 0 0).x (Pt.mk 3 0).x ∧
        approxEq (Pt.mk 0 0).y (Pt.mk 3 0).y) := by
  exact (C7_no_duplicate_closing_edge openAngle ConvState.init
      [PEvent.begin ⟨0, 0⟩, PEvent.line ⟨0, 0⟩ ⟨3, 0⟩,
        PEvent.endp ⟨3, 0⟩ ⟨0, 0⟩ true]
      (by norm_num [convertFrom, convStep, closeFn, convFinish,
        ConvState.init, openAngle, approxEq, ratAbs])).1
    ⟨3, 0⟩ ⟨0, 0⟩ true (by simp)

/-- One rectangle yields four vertices. -/
theorem length_rectVertices (a b : KRect) (c : Color) :
    (rectVertices a b c).length = 4 := rfl

/-- One rectangle yields six indices. -/
theorem length_rectIndices (i : ℕ) : (rectIndices i).length = 6 := rfl

/-- The vertex run appended by `fill_rects` has four entries per rectangle. -/
theorem length_flat_rectVertices (rects : List (KRect × KRect × Color)) :
    (rects.flatMap (fun r => rectVertices r.1 r.2.1 r.2.2)).length =
      4 * rects.length := by
  induction rects with
  | nil => rfl
  | cons r rs ih =>
    rw [List.flatMap_cons, List.length_append, ih, length_rectVertices,
      List.length_cons]
    ring

/-- The index run appended by `fill_rects` has six entries per rectangle. -/
theorem length_flat_rectIndices (n : ℕ) :
    ((List.range n).flatMap rectIndices).length = 6 * n := by
  induction n with
  | zero => rfl
  | succ n ih =>
    rw [List.range_succ, List.flatMap_append, List.length_append, ih]
    simp only [List.flatMap_cons, List.flatMap_nil, List.append_nil,
      length_rectIndices]
    omega

/-- **C10.** `fill_rects` with `n` rectangles appends exactly `4n` vertices
and `6n` indices to the shared buffer, and every appended index has the
form `4i + k` with `i < n` and `k < 4`, hence is strictly below the total
vertex count at upload time — the in-range precondition of the unsafe
`write_vertices` call. -/
theorem C10_fill_rects_indices_in_range (buf : VB)
    (rects : List (KRect × KRect × Color)) :
    (fillRectsAppend buf rects).vertices.length =
        buf.vertices.length + 4 * rects.length ∧
      (fillRectsAppend buf rects).indices.length =
        buf.indices.length + 6 * rects.length ∧
      ∀ idx ∈ (List.range rects.length).flatMap rectIndices,
        ∃ i k, i < rects.length ∧ k < 4 ∧ idx = 4 * i + k ∧
          idx < (fillRectsAppend buf rects).vertices.length := by
  have hlen : (fillRectsAppend buf rects).vertices.length =
      buf.vertices.length + 4 * rects.length := by
    simp only [fillRectsAppend, List.length_append, length_flat_rectVertices]
  refine ⟨hlen, ?_, ?_⟩
  · simp only [fillRectsAppend, List.length_append, length_flat_rectIndices]
  · intro idx hmem
    obtain ⟨i, hi, hidx⟩ := List.mem_flatMap.mp hmem
    rw [List.mem_range] at hi
    simp only [rectIndices, List.mem_cons, List.not_mem_nil,
      or_false] at hidx
    rcases hidx with h | h | h | h | h | h
    · exact ⟨i, 0, hi, by omega, by omega, by omega⟩
    · exact ⟨i, 1, hi, by omega, by omega, by omega⟩
    · exact ⟨i, 2, hi, by omega, by omega, by omega⟩
    · exact ⟨i, 0, hi, by omega, by omega, by omega⟩
    · exact ⟨i, 2, hi, by omega, by omega, by omega⟩
    · exact ⟨i, 3, hi, by omega, by omega, by omega⟩

/-- **C10, witness.** One rectangle: appended index `3` is `4·0 + 3` and is
below the four appended vertices. -/
theorem C10_fill_rects_indices_in_range_witness :
    ∃ i k, i < ([(exRect, exRect, exColor)] :
          List (KRect × KRect × Color)).length ∧ k < 4 ∧ 3 = 4 * i + k ∧
      3 < (fillRectsAppend ⟨[], []⟩ [(exRect, exRect, exColor)]).vertices.length := by
  exact (C10_fill_rects_indices_in_range ⟨[], []⟩
    [(exRect, exRect, exColor)]).2.2 3 (by decide)

/-- **C1.** The claim's scenario diverges instead of submitting a draw:
`Mask::upload` on any dirty mask reaches the `todo!()` standing where the
pixmap data should be converted for `write_texture`, so it panics before
writing the texture or clearing the dirty flag. After
`clip(rectA); clip(rectB)` the top state's mask is dirty, hence the
following `fill` panics rather than submitting the draw. -/
theorem C1_dirty_mask_draw_panics :
    Mask.upload ⟨5, 4, 4, ⟨[]⟩, true⟩ = Step.panics ∧
      (((mkContext 4 4).clip c1RectA).clip c1RectB).state.head?.map
          (fun s => s.mask.map Mask.dirty) = some (some true) ∧
      RC.fill (((mkContext 4 4).clip c1RectA).clip c1RectB) ([], [])
        (Except.ok ()) (Except.ok ()) = Step.panics := by
  refine ⟨rfl, ?_, ?_⟩
  · simp [mkContext, RC.clip, RenderState.deflt]
  · simp [mkContext, RC.clip, RenderState.deflt, RC.fill, RC.fillImpl,
      RC.pushBuffers, Mask.upload]

/-- **C3, counterexample.** Two failing draw operations in sequence: first a
`fill` whose GPU submission fails with backend error 7, then a
`stroke_styled` with a dash pattern (`NotSupported`). The accumulator then
holds the **second** error, not the first, so `status()` does not return
the first failure. -/
theorem C3_counterexample :
    (let ctx1 := (RC.fill (mkContext 4 4) ([], []) (Except.ok ())
        (Except.error 7)).getD (mkContext 4 4)
     let ctx2 := (RC.strokeStyled ctx1 [1] ([], [])
        (Except.ok ()) (Except.ok ())).getD ctx1
     ctx1.status = Except.error (Pierror.backendError 7) ∧
       ctx2.statusOp.1 = Except.error Pierror.notSupported ∧
       ctx2.statusOp.1 ≠ Except.error (Pierror.backendError 7) ∧
       ctx2.statusOp.2.statusOp.1 = Except.ok ()) := by
  refine ⟨?_, ?_, ?_, ?_⟩ <;>
    simp [RC.fill, RC.fillImpl, RC.strokeStyled, RC.strokeImpl, Step.getD,
      RC.statusOp, mkContext, RC.pushBuffers, RenderState.deflt]

/-- **C3, amended.** Each failing drawing operation overwrites the status
accumulator, so it holds the error of the **most recent** failing operation
(later failures replace earlier ones); `status()` returns the stored result
while resetting the accumulator to `Ok`, so an immediately following
`status()` returns `Ok`. -/
theorem C3_amended_last_error_wins (ctx : RC) (e : Pierror)
    (ta : List Vertex × List ℕ) (pr : Except ℕ Unit) (d : ℚ) (ds : List ℚ) :
    ((RC.fill ctx ta (Except.error e) pr).getD ctx).status =
        Except.error e ∧
      ((RC.strokeStyled ctx (d :: ds) ta (Except.ok ()) pr).getD ctx).status =
        Except.error Pierror.notSupported ∧
      ctx.statusOp = (ctx.status, { ctx with status := Except.ok () }) ∧
      ctx.statusOp.2.statusOp.1 = Except.ok () := by
  refine ⟨?_, ?_, rfl, rfl⟩
  · simp [RC.fill, RC.fillImpl, Step.getD]
  · simp [RC.strokeStyled, RC.strokeImpl, Step.getD]

/-- A successful `uv_rect` never changes the atlas texture or dimensions:
only the allocator state, the glyph map, and the write log can grow. -/
theorem uvRect_preserves {A : Type}
    (raster : LayoutGlyph → Except Pierror (List ℕ))
    (allocate : A → ℤ × ℤ → Option (Allocation × A)) (a : AtlasState A)
    (g : LayoutGlyph) (r : KRect) (a2 : AtlasState A) (ras : Bool)
    (h : Atlas.uvRect raster allocate a g = Except.ok (r, a2, ras)) :
    a2.texture = a.texture ∧ a2.sizeW = a.sizeW ∧ a2.sizeH = a.sizeH := by
  unfold Atlas.uvRect at h
  cases hl : a.glyphs.lookup g.cacheKey with
  | some alloc =>
    rw [hl] at h
    simp only [Except.ok.injEq, Prod.mk.injEq] at h
    obtain ⟨-, ha, -⟩ := h
    subst ha
    exact ⟨rfl, rfl, rfl⟩
  | none =>
    rw [hl] at h
    cases hras : raster g with
    | error e =>
      rw [hras] at h
      simp at h
    | ok buffer =>
      rw [hras] at h
      cases halloc : allocate a.allocator (truncQ g.w, g.cacheKey.fontSize) with
      | none =>
        rw [halloc] at h
        simp at h
      | some pr =>
        obtain ⟨alloc, allocator2⟩ := pr
        rw [halloc] at h
        simp only [Except.ok.injEq, Prod.mk.injEq] at h
        obtain ⟨-, ha, -⟩ := h
        subst ha
        exact ⟨rfl, rfl, rfl⟩

/-- The glyph loop of `draw_text` preserves the atlas texture and size. -/
theorem processGlyphs_preserves {A : Type}
    (raster : LayoutGlyph → Except Pierror (List ℕ))
    (allocate : A → ℤ × ℤ → Option (Allocation × A))
    (glyphs : List (LayoutGlyph × KRect × Color)) (a : AtlasState A) :
    (processGlyphs raster allocate a glyphs).1.texture = a.texture ∧
      (processGlyphs raster allocate a glyphs).1.sizeW = a.sizeW ∧
      (processGlyphs raster allocate a glyphs).1.sizeH = a.sizeH := by
  induction glyphs generalizing a with
  | nil => exact ⟨rfl, rfl, rfl⟩
  | cons gpc rest ih =>
    obtain ⟨g, posRect, color⟩ := gpc
    cases huv : Atlas.uvRect raster allocate a g with
    | error e =>
      simp only [processGlyphs, huv]
      exact ih a
    | ok triple =>
      obtain ⟨uv, a3, ras⟩ := triple
      obtain ⟨ht, hw, hh⟩ := uvRect_preserves raster allocate a g uv a3 ras huv
      obtain ⟨ht2, hw2, hh2⟩ := ih a3
      simp only [processGlyphs, huv]
      exact ⟨ht2.trans ht, hw2.trans hw, hh2.trans hh⟩

/-- **C8.** `uv_rect` is a pure cache lookup after the first request: if a
call returned rectangle `r` and left the atlas in state `a2`, calling again
with the same glyph key returns the identical `r`, leaves `a2` exactly as
it is (no allocator step, no texture write), and runs the hit branch
(`false` = no rasterization). -/
theorem C8_uv_rect_cached {A : Type}
    (raster : LayoutGlyph → Except Pierror (List ℕ))
    (allocate : A → ℤ × ℤ → Option (Allocation × A)) (a : AtlasState A)
    (g : LayoutGlyph) (r : KRect) (a2 : AtlasState A) (ras : Bool)
    (h : Atlas.uvRect raster allocate a g = Except.ok (r, a2, ras)) :
    Atlas.uvRect raster allocate a2 g = Except.ok (r, a2, false) := by
  unfold Atlas.uvRect at h ⊢
  cases hl : a.glyphs.lookup g.cacheKey with
  | some alloc =>
    rw [hl] at h
    simp only [Except.ok.injEq, Prod.mk.injEq] at h
    obtain ⟨hr, ha, -⟩ := h
    subst ha
    rw [hl]
    dsimp only
    rw [hr]
  | none =>
    rw [hl] at h
    cases hras : raster g with
    | error e =>
      rw [hras] at h
      simp at h
    | ok buffer =>
      rw [hras] at h
      cases halloc : allocate a.allocator (truncQ g.w, g.cacheKey.fontSize) with
      | none =>
        rw [halloc] at h
        simp at h
      | some pr =>
        obtain ⟨alloc, allocator2⟩ := pr
        rw [halloc] at h
        simp only [Except.ok.injEq, Prod.mk.injEq] at h
        obtain ⟨hr, ha, -⟩ := h
        subst ha
        simp only [List.lookup, beq_self_eq_true]
        rw [hr]

/-- **C8, witness.** The atlas `exAtlas` already caches `exKey`; requesting
it again returns the stored normalized rectangle with the atlas untouched
and the hit branch taken. -/
theorem C8_uv_rect_cached_witness :
    Atlas.uvRect exRaster exAllocate exAtlas exGlyph =
      Except.ok (allocToRect 16 16 exAllocation, exAtlas, false) := by
  exact C8_uv_rect_cached exRaster exAllocate exAtlas exGlyph
    (allocToRect 16 16 exAllocation) exAtlas false rfl

/-- **C9.** On every non-panicking exit of `draw_text` — the successful
draw and the failed inner `fill_rects` alike — the source's atlas slot is
`Some` again, holding the checked-out atlas instance (as mutated by glyph
caching): same texture handle and same dimensions. -/
theorem C9_draw_text_restores_atlas {A : Type}
    (raster : LayoutGlyph → Except Pierror (List ℕ))
    (allocate : A → ℤ × ℤ → Option (Allocation × A)) (tc : TextCtx A)
    (atlas : AtlasState A) (h : tc.atlas = some atlas)
    (glyphs : List (LayoutGlyph × KRect × Color)) (pushResult : Except ℕ Unit)
    (tc2 : TextCtx A)
    (hret : RC.drawText raster allocate tc glyphs pushResult = Step.ret tc2) :
    tc2.atlas = some (processGlyphs raster allocate atlas glyphs).1 ∧
      ∃ a2, tc2.atlas = some a2 ∧ a2.texture = atlas.texture ∧
        a2.sizeW = atlas.sizeW ∧ a2.sizeH = atlas.sizeH := by
  unfold RC.drawText at hret
  rw [h] at hret
  dsimp only at hret
  cases hpb : RC.fillRectsOp tc.rc
      (processGlyphs raster allocate atlas glyphs).2 pushResult with
  | panics =>
    rw [hpb] at hret
    simp at hret
  | ret pair =>
    obtain ⟨rc2, res⟩ := pair
    rw [hpb] at hret
    have hatlas : tc2.atlas = some (processGlyphs raster allocate atlas glyphs).1 := by
      cases res with
      | error e =>
        simp only [Step.ret.injEq] at hret
        rw [← hret]
      | ok u =>
        simp only [Step.ret.injEq] at hret
        rw [← hret]
    obtain ⟨ht, hw, hh⟩ :=
      processGlyphs_preserves raster allocate glyphs atlas
    exact ⟨hatlas,
      ⟨(processGlyphs raster allocate atlas glyphs).1, hatlas, ht, hw, hh⟩⟩

/-- **C9, witness.** `draw_text` with no glyphs and a failing GPU
submission still restores the atlas into the source. -/
theorem C9_draw_text_restores_atlas_witness :
    c9Result.atlas = some (processGlyphs exRaster exAllocate exAtlas []).1 ∧
      ∃ a2, c9Result.atlas = some a2 ∧ a2.texture = exAtlas.texture ∧
        a2.sizeW = exAtlas.sizeW ∧ a2.sizeH = exAtlas.sizeH := by
  exact C9_draw_text_restores_atlas exRaster exAllocate c9Tc exAtlas rfl []
    (Except.error 3) c9Result rfl

end PietGpu
